import Mathlib

/-!
# FlipLab scraper contract — verification development

Shallow embedding of the failure-handling core of the FlipLab repository:
the retrying scraper client (`ScraperClient.executeWithRetry`), the Express
search routes (Joi `searchParamsSchema` validation and the `POST
/api/search/all` handler), the scrapers' `parsePrice` helper, the health
derivation in `ScraperService.getHealthStatus`, and the `useScraper` hook's
pure derived views (`getPriceStats`).

Conventions:
* JavaScript numbers are modelled as `ℚ`; the JS value `NaN` (which is not a
  rational) is modelled by `Option ℚ` where `none` stands for `NaN` at the
  single place it can arise (`parseFloat`).
* Promises/exceptions are modelled with `Except`: `.error` is a rejected
  promise / thrown exception.
-/

namespace FlipLab

/-! ## Data model

`MarketplaceItem` from `src/types` (both the front end and the scraper
service declare the same shape).  The optional metadata fields
(`originalPrice`, `description`, `location`, `seller`, `condition`,
`category`, `brand`, `tags`, `metadata`) play no role in the claims and are
elided; `scrapedAt` is a timestamp modelled as `ℕ`. -/

structure MarketplaceItem where
  id : String
  title : String
  price : ℚ
  currency : String
  images : List String
  url : String
  platform : String
  scrapedAt : ℕ
  deriving Repr, DecidableEq

/-! ## Price parsing (`PoshmarkScraper.parsePrice`,
`FacebookMarketplaceScraper.parsePrice` — both bodies are identical)

```ts
private parsePrice(priceText: string): number {
  try {
    const cleanPrice = priceText.replace(/[^\d.,]/g, '');
    if (cleanPrice.includes(',')) {
      return parseFloat(cleanPrice.replace(/,/g, ''));
    } else if (cleanPrice.includes('.')) {
      return parseFloat(cleanPrice);
    } else {
      return parseFloat(cleanPrice);
    }
  } catch {
    this.logger.debug(...);
    return 0;
  }
}
```

`parseFloat` never throws in JavaScript — on input with no parsable numeric
prefix it returns `NaN` — so the `catch` branch returning `0` is
unreachable and the embedding is the `try` body.  `NaN` is modelled as
`none`. -/

/-- Numeric value of a list of decimal digit characters (most significant
first); the value JS assigns to the digit strings `parseFloat` consumes. -/
def digitsVal (cs : List Char) : ℕ :=
  cs.foldl (fun acc c => 10 * acc + (c.toNat - 48)) 0

/-- Digit-level result of JS `parseFloat` on the strings `parsePrice` feeds
it (the alphabet after cleaning is digits, `'.'` and `','`): the longest
prefix of the form `digits [. digits]`, as (integer value, fraction value,
fraction length); `none` when that prefix contains no digit, which is the
case where JS returns `NaN`.  (Signs, exponents and leading whitespace
cannot occur in a cleaned string.) -/
def parseFloatParts (s : String) : Option (ℕ × ℕ × ℕ) :=
  let cs := s.data
  let intPart := cs.takeWhile Char.isDigit
  let rest := cs.dropWhile Char.isDigit
  match rest with
  | '.' :: rest2 =>
    let fracPart := rest2.takeWhile Char.isDigit
    if intPart.isEmpty && fracPart.isEmpty then none
    else some (digitsVal intPart, digitsVal fracPart, fracPart.length)
  | _ => if intPart.isEmpty then none else some (digitsVal intPart, 0, 0)

/-- The rational number denoted by a `parseFloatParts` triple. -/
def ratOfParts (p : ℕ × ℕ × ℕ) : ℚ :=
  (p.1 : ℚ) + (p.2.1 : ℚ) / (10 : ℚ) ^ p.2.2

/-- Model of JS `parseFloat` restricted to the cleaned strings `parsePrice`
produces: `none` is `NaN`. -/
def parseFloatQ (s : String) : Option ℚ :=
  (parseFloatParts s).map ratOfParts

/-- `parsePrice` from the scrapers: strip every character that is not a
digit, dot or comma; when the cleaned string contains a comma, delete the
commas before parsing; the remaining two source branches both call
`parseFloat(cleanPrice)` unchanged. -/
def parsePrice (priceText : String) : Option ℚ :=
  let cleanPrice := String.mk (priceText.data.filter fun c => c.isDigit || c == '.' || c == ',')
  if cleanPrice.data.contains ',' then
    parseFloatQ (String.mk (cleanPrice.data.filter fun c => c ≠ ','))
  else if cleanPrice.data.contains '.' then
    parseFloatQ cleanPrice
  else
    parseFloatQ cleanPrice

/-! ## Retrying transport (`ScraperClient.executeWithRetry`)

```ts
private async executeWithRetry<T>(operation): Promise<AxiosResponse<T>> {
  let lastError: Error;
  for (let attempt = 1; attempt <= this.config.retryAttempts; attempt++) {
    try {
      return await operation();
    } catch (error) {
      lastError = error as Error;
      if (attempt < this.config.retryAttempts) {
        await this.delay(this.config.retryDelay * attempt);
      }
    }
  }
  throw lastError!;
}
```

The operation is modelled as a function from the attempt number (1-based)
to an `Except`; the embedding records, besides the outcome, the number of
attempts performed and the list of inserted backoff delays (in ms), which
are the observables the spec talks about.  The `for` loop is expressed by
structural recursion on `remaining = retryAttempts - attempt + 1`, the
number of iterations still to run; `attempt < retryAttempts` is
`remaining ≠ 0` after peeling the current iteration.  The final
`throw lastError!` with no attempt ever made (possible only when
`retryAttempts = 0`) throws the uninitialised `lastError`, modelled
`Except.error none`. -/

deriving instance DecidableEq for Except

structure RetryTrace (E A : Type) where
  result : Except (Option E) A
  attempts : ℕ
  delays : List ℕ
  deriving Repr, DecidableEq

def retryLoop {E A : Type} (op : ℕ → Except E A) (retryDelay : ℕ) :
    (attempt : ℕ) → (remaining : ℕ) → RetryTrace E A
  | _, 0 => { result := Except.error none, attempts := 0, delays := [] }
  | attempt, remaining + 1 =>
    match op attempt with
    | Except.ok a => { result := Except.ok a, attempts := 1, delays := [] }
    | Except.error e =>
      let rest := retryLoop op retryDelay (attempt + 1) remaining
      { result := match rest.result with
          | Except.error none => Except.error (some e)
          | r => r
        attempts := 1 + rest.attempts
        delays := (if remaining = 0 then [] else [retryDelay * attempt]) ++ rest.delays }

/-- `executeWithRetry` with configuration `retryAttempts`, `retryDelay`:
run the loop from `attempt = 1` with `retryAttempts` iterations
remaining.  When every attempt fails, `result` is the last error
(`rest.result` stays `error none` only until the innermost failed attempt
writes `lastError`). -/
def executeWithRetry {E A : Type} (op : ℕ → Except E A) (retryAttempts retryDelay : ℕ) :
    RetryTrace E A :=
  retryLoop op retryDelay 1 retryAttempts

/-! ## Request validation (`searchParamsSchema` in
`scraper-service/src/api/routes/scraper.ts`)

```ts
const searchParamsSchema = Joi.object({
  query: Joi.string().required().min(1).max(200),
  category: Joi.string().optional().max(100),
  location: Joi.string().optional().max(100),
  priceMin: Joi.number().optional().min(0).max(100000),
  priceMax: Joi.number().optional().min(0).max(100000),
  condition: Joi.string().optional().max(50),
  sortBy: Joi.string().optional().valid('relevance', 'price-low',
    'price-high', 'date', 'distance'),
  limit: Joi.number().optional().min(1).max(100).default(20)
});
```

Joi with the default options (`abortEarly: true`) reports the first failing
key in schema order; the schema has no `.trim()` on `query` and no
`.default(...)` on `sortBy`, and `min`/`max` on numbers are constraints (a
violating value fails validation; Joi does not clamp).  Joi's `min`/`max`
on a string bound its length; `Joi.string()` also rejects the empty
string, which `min(1)` subsumes. -/

structure RawSearchParams where
  query : Option String
  category : Option String
  location : Option String
  priceMin : Option ℚ
  priceMax : Option ℚ
  condition : Option String
  sortBy : Option String
  limit : Option ℚ
  deriving Repr, DecidableEq

/-- `SearchParams`, the validated value: `limit` has received its default
and every other field is as supplied. -/
structure SearchParams where
  query : String
  category : Option String
  location : Option String
  priceMin : Option ℚ
  priceMax : Option ℚ
  condition : Option String
  sortBy : Option String
  limit : ℚ
  deriving Repr, DecidableEq

def validSortByValues : List String :=
  ["relevance", "price-low", "price-high", "date", "distance"]

/-- One Joi key check: an optional string field with a maximum length. -/
def checkOptionalString (fieldName : String) (maxLen : ℕ) :
    Option String → Except String (Option String)
  | none => Except.ok none
  | some s =>
    if s.length ≤ maxLen then Except.ok (some s)
    else Except.error (fieldName ++ " length must be less than or equal to " ++
      toString maxLen ++ " characters long")

/-- One Joi key check: an optional number field with inclusive bounds. -/
def checkOptionalNumber (fieldName : String) (lo hi : ℚ) :
    Option ℚ → Except String (Option ℚ)
  | none => Except.ok none
  | some x =>
    if x < lo then
      Except.error (fieldName ++ " must be greater than or equal to " ++ toString lo.num)
    else if hi < x then
      Except.error (fieldName ++ " must be less than or equal to " ++ toString hi.num)
    else Except.ok (some x)

/-- The `query` key: `Joi.string().required().min(1).max(200)`. -/
def checkQuery : Option String → Except String String
  | none => Except.error "query is required"
  | some q =>
    if q.length < 1 then Except.error "query is not allowed to be empty"
    else if 200 < q.length then
      Except.error "query length must be less than or equal to 200 characters long"
    else Except.ok q

/-- The `sortBy` key: optional, must be one of the five allowed values; no
default is applied. -/
def checkSortBy : Option String → Except String (Option String)
  | none => Except.ok none
  | some s =>
    if validSortByValues.contains s then Except.ok (some s)
    else Except.error "sortBy must be one of the allowed values"

/-- The `limit` key: `Joi.number().optional().min(1).max(100).default(20)`;
an out-of-range value is rejected, an absent one becomes `20`. -/
def checkLimit : Option ℚ → Except String ℚ
  | none => Except.ok 20
  | some l =>
    if l < 1 then Except.error "limit must be greater than or equal to 1"
    else if 100 < l then Except.error "limit must be less than or equal to 100"
    else Except.ok l

/-- `searchParamsSchema.validate(raw)`: keys are checked in schema order,
the first failure aborts, and on success the value is returned with
`limit` defaulted to `20` when absent. -/
def validateSearchParams (raw : RawSearchParams) : Except String SearchParams :=
  match checkQuery raw.query with
  | Except.error e => Except.error e
  | Except.ok query =>
  match checkOptionalString "category" 100 raw.category with
  | Except.error e => Except.error e
  | Except.ok category =>
  match checkOptionalString "location" 100 raw.location with
  | Except.error e => Except.error e
  | Except.ok location =>
  match checkOptionalNumber "priceMin" 0 100000 raw.priceMin with
  | Except.error e => Except.error e
  | Except.ok priceMin =>
  match checkOptionalNumber "priceMax" 0 100000 raw.priceMax with
  | Except.error e => Except.error e
  | Except.ok priceMax =>
  match checkOptionalString "condition" 50 raw.condition with
  | Except.error e => Except.error e
  | Except.ok condition =>
  match checkSortBy raw.sortBy with
  | Except.error e => Except.error e
  | Except.ok sortBy =>
  match checkLimit raw.limit with
  | Except.error e => Except.error e
  | Except.ok limit =>
    Except.ok { query, category, location, priceMin, priceMax, condition, sortBy, limit }

/-- Re-inject a validated value as a raw request body (the identity on the
JSON level: every present field is kept, `limit` is present). -/
def rawOfValidated (p : SearchParams) : RawSearchParams :=
  { query := some p.query, category := p.category, location := p.location
    priceMin := p.priceMin, priceMax := p.priceMax, condition := p.condition
    sortBy := p.sortBy, limit := some p.limit }

/-! ## The `POST /api/search/all` handler
(`scraper-service/src/api/routes/scraper.ts`, lines 163–214)

```ts
const [facebookItems, poshmarkItems] = await Promise.all([
  ScraperService.getInstance().searchFacebookMarketplace(searchParams),
  ScraperService.getInstance().searchPoshmark(searchParams)
]);
const allItems = [...facebookItems, ...poshmarkItems];
return res.json({ success: true,
  data: { facebook: facebookItems, poshmark: poshmarkItems,
          total: allItems.length }, ... });
```

with the surrounding `catch` turning any rejection into
`res.status(500).json({ success: false, error: 'Search failed', ... })`.
The two service calls are modelled by their outcomes (`Except`): a
rejected promise carries the error message.  `Promise.all` rejects as soon
as either promise rejects; the model takes the facebook rejection first
when both fail (which rejection wins is a race in JS — for the claims only
*that* it rejects matters). -/

inductive SearchAllResponse where
  | success (facebook poshmark : List MarketplaceItem) (total : ℕ)
  | serverError (message : String)
  deriving Repr, DecidableEq

def promiseAll2 {α β : Type} :
    Except String α → Except String β → Except String (α × β)
  | Except.ok x, Except.ok y => Except.ok (x, y)
  | Except.error e, _ => Except.error e
  | _, Except.error e => Except.error e

def searchAllHandler (facebookSearch poshmarkSearch : Except String (List MarketplaceItem)) :
    SearchAllResponse :=
  match promiseAll2 facebookSearch poshmarkSearch with
  | Except.ok (facebookItems, poshmarkItems) =>
    let allItems := facebookItems ++ poshmarkItems
    SearchAllResponse.success facebookItems poshmarkItems allItems.length
  | Except.error e => SearchAllResponse.serverError e

/-! ## Health derivation (`ScraperService.getHealthStatus`, lines 185–232)

```ts
const status: HealthStatus = { status: 'healthy', ...,
  scrapers: { facebook: ..., poshmark: ... } };
if (status.scrapers.facebook === 'error' || status.scrapers.poshmark === 'error') {
  status.status = 'unhealthy';
} else if (status.scrapers.facebook === 'inactive' || status.scrapers.poshmark === 'inactive') {
  status.status = 'degraded';
}
```
-/

inductive ScraperState where
  | active
  | inactive
  | error
  deriving Repr, DecidableEq

inductive OverallHealth where
  | healthy
  | degraded
  | unhealthy
  deriving Repr, DecidableEq

/-- The status derivation of `getHealthStatus`: start from `healthy`, then
override by the two `if` branches. -/
def deriveOverallStatus (facebook poshmark : ScraperState) : OverallHealth :=
  if facebook = ScraperState.error ∨ poshmark = ScraperState.error then
    OverallHealth.unhealthy
  else if facebook = ScraperState.inactive ∨ poshmark = ScraperState.inactive then
    OverallHealth.degraded
  else
    OverallHealth.healthy

/-! ## Price statistics (`getPriceStats` in `src/hooks/useScraper.ts`)

```ts
if (state.items.length === 0) {
  return { min: 0, max: 0, average: 0, median: 0 };
}
const prices = state.items.map(item => item.price).sort((a, b) => a - b);
const min = prices[0];
const max = prices[prices.length - 1];
const average = prices.reduce((sum, price) => sum + price, 0) / prices.length;
const mid = Math.floor(prices.length / 2);
const median = prices.length % 2 === 0
  ? (prices[mid - 1] + prices[mid]) / 2
  : prices[mid];
```

`sort((a, b) => a - b)` sorts the numbers ascending; it is modelled with
`List.insertionSort (· ≤ ·)` (a stable ascending sort — only the sorted
result matters here).  Array indexing `prices[i]` on the in-range indices
used above is `List.getD i 0`. -/

structure PriceStats where
  min : ℚ
  max : ℚ
  average : ℚ
  median : ℚ
  deriving Repr, DecidableEq

def getPriceStats (items : List MarketplaceItem) : PriceStats :=
  if items.length = 0 then
    { min := 0, max := 0, average := 0, median := 0 }
  else
    let prices := List.insertionSort (· ≤ ·) (items.map fun item => item.price)
    let min := prices.getD 0 0
    let max := prices.getD (prices.length - 1) 0
    let average := (prices.foldl (fun sum price => sum + price) 0) / (prices.length : ℚ)
    let mid := prices.length / 2
    let median :=
      if prices.length % 2 = 0 then (prices.getD (mid - 1) 0 + prices.getD mid 0) / 2
      else prices.getD mid 0
    { min, max, average, median }

/-! ## Helper lemmas on the retry loop -/

lemma retryLoop_zero {E A : Type} (op : ℕ → Except E A) (d attempt : ℕ) :
    retryLoop op d attempt 0 = { result := Except.error none, attempts := 0, delays := [] } :=
  rfl

lemma retryLoop_succ {E A : Type} (op : ℕ → Except E A) (d attempt r : ℕ) :
    retryLoop op d attempt (r + 1) =
      match op attempt with
      | Except.ok a => { result := Except.ok a, attempts := 1, delays := [] }
      | Except.error e =>
        let rest := retryLoop op d (attempt + 1) r
        { result := match rest.result with
            | Except.error none => Except.error (some e)
            | res => res
          attempts := 1 + rest.attempts
          delays := (if r = 0 then [] else [d * attempt]) ++ rest.delays } :=
  rfl

/-- A permanently failing operation runs through all remaining iterations:
`r + 1` attempts are made, the surfaced error is the one thrown by the last
attempt, and a backoff delay `d * n` follows every attempt `n` except the
last. -/
lemma retryLoop_allFail {E A : Type} (f : ℕ → E) (d : ℕ) :
    ∀ (r attempt : ℕ),
      retryLoop (fun n => (Except.error (f n) : Except E A)) d attempt (r + 1) =
        { result := Except.error (some (f (attempt + r))),
          attempts := r + 1,
          delays := (List.range r).map fun i => d * (attempt + i) } := by
  intro r
  induction r with
  | zero =>
    intro attempt
    rw [retryLoop_succ]
    simp [retryLoop_zero]
  | succ r ih =>
    intro attempt
    rw [retryLoop_succ]
    simp only [ih (attempt + 1)]
    simp only [RetryTrace.mk.injEq]
    refine ⟨by rw [show attempt + 1 + r = attempt + (r + 1) by omega], by omega, ?_⟩
    rw [if_neg (Nat.succ_ne_zero r), List.range_succ_eq_map, List.map_cons, List.map_map]
    simp only [Nat.add_zero, List.singleton_append]
    refine congrArg₂ _ rfl ?_
    refine List.map_congr_left fun i _ => ?_
    simp only [Function.comp_apply]
    exact congrArg (d * ·) (by omega)

/-- Every run of the retry loop makes at least one attempt when at least one
iteration remains. -/
lemma retryLoop_attempts_pos {E A : Type} (op : ℕ → Except E A) (d : ℕ) :
    ∀ (r attempt : ℕ), 1 ≤ r → 1 ≤ (retryLoop op d attempt r).attempts := by
  intro r attempt hr
  obtain ⟨r, rfl⟩ : ∃ s, r = s + 1 := ⟨r - 1, by omega⟩
  rw [retryLoop_succ]
  cases op attempt <;> simp

/-- For an arbitrary operation, the recorded delays are exactly
`d * attempt, d * (attempt+1), …`, one for every attempt made except the
last. -/
lemma retryLoop_delays {E A : Type} (op : ℕ → Except E A) (d : ℕ) :
    ∀ (r attempt : ℕ),
      (retryLoop op d attempt r).delays =
        (List.range ((retryLoop op d attempt r).attempts - 1)).map fun i => d * (attempt + i) := by
  intro r
  induction r with
  | zero => intro attempt; simp [retryLoop_zero]
  | succ r ih =>
    intro attempt
    rw [retryLoop_succ]
    cases hop : op attempt with
    | ok a => rfl
    | error e =>
      simp only []
      rcases Nat.eq_zero_or_pos r with hr | hr
      · subst hr
        simp [retryLoop_zero]
      · have hpos := retryLoop_attempts_pos op d r (attempt + 1) hr
        obtain ⟨a, ha⟩ : ∃ a, (retryLoop op d (attempt + 1) r).attempts = a + 1 :=
          ⟨(retryLoop op d (attempt + 1) r).attempts - 1, by omega⟩
        rw [ih (attempt + 1), ha]
        simp only [Nat.add_sub_cancel, if_neg (by omega : ¬ r = 0)]
        rw [show 1 + (a + 1) - 1 = a + 1 by omega, List.range_succ_eq_map,
          List.map_cons, List.map_map]
        simp only [Nat.add_zero, List.singleton_append]
        refine congrArg₂ _ rfl ?_
        refine List.map_congr_left fun i _ => ?_
        simp only [Function.comp_apply]
        exact congrArg (d * ·) (by omega)

/-! ## Claim theorems: retry policy -/

/-- C4: with `retryAttempts = N` (`N ≥ 1`), a permanently failing operation
is attempted by `executeWithRetry` exactly `N` times, after which the last
error (the one raised by attempt `N`) is surfaced to the caller. -/
theorem executeWithRetry_attempts_exact {E A : Type} (f : ℕ → E) (N d : ℕ) (h : 1 ≤ N) :
    (executeWithRetry (fun n => (Except.error (f n) : Except E A)) N d).attempts = N ∧
    (executeWithRetry (fun n => (Except.error (f n) : Except E A)) N d).result
      = Except.error (some (f N)) := by
  obtain ⟨r, rfl⟩ : ∃ r, N = r + 1 := ⟨N - 1, by omega⟩
  rw [executeWithRetry, retryLoop_allFail]
  exact ⟨rfl, by rw [Nat.add_comm 1 r]⟩

/-- Witness for C4 at `N = 3`. -/
theorem executeWithRetry_attempts_exact_witness :
    1 ≤ 3 ∧
    ((executeWithRetry (fun _ => (Except.error "network error" : Except String Unit)) 3 1000).attempts = 3 ∧
     (executeWithRetry (fun _ => (Except.error "network error" : Except String Unit)) 3 1000).result
       = Except.error (some "network error")) :=
  ⟨by decide, executeWithRetry_attempts_exact (fun _ => "network error") 3 1000 (by decide)⟩

/-- C5: the backoff is linear.  For any operation, the recorded delay list
is `d*1, d*2, …`, one entry per attempt except the last (so none after the
final attempt), it is sorted non-decreasingly, and for a permanently
failing operation with `maxAttempts = N` it is exactly
`baseDelay * 1, …, baseDelay * (N-1)`. -/
theorem executeWithRetry_backoff_linear {E A : Type}
    (op : ℕ → Except E A) (f : ℕ → E) (N d : ℕ) :
    ((executeWithRetry op N d).delays =
        (List.range ((executeWithRetry op N d).attempts - 1)).map fun n => d * (n + 1)) ∧
    (executeWithRetry op N d).delays.length = (executeWithRetry op N d).attempts - 1 ∧
    List.Sorted (· ≤ ·) (executeWithRetry op N d).delays ∧
    (executeWithRetry (fun n => (Except.error (f n) : Except E A)) N d).delays =
      (List.range (N - 1)).map fun n => d * (n + 1) := by
  have key : (executeWithRetry op N d).delays =
      (List.range ((executeWithRetry op N d).attempts - 1)).map fun n => d * (n + 1) := by
    rw [executeWithRetry, retryLoop_delays]
    exact List.map_congr_left fun i _ => by rw [Nat.add_comm]
  refine ⟨key, by rw [key]; simp, ?_, ?_⟩
  · rw [key]
    rw [List.Sorted, List.pairwise_map]
    exact (List.pairwise_lt_range _).imp fun hij => by
      exact Nat.mul_le_mul_left d (by omega)
  · rcases Nat.eq_zero_or_pos N with hN | hN
    · subst hN; rfl
    · obtain ⟨r, rfl⟩ : ∃ r, N = r + 1 := ⟨N - 1, by omega⟩
      rw [executeWithRetry, retryLoop_allFail]
      simp only [Nat.add_sub_cancel]
      exact List.map_congr_left fun i _ => by rw [Nat.add_comm]

/-- C2 counterexample: a simulated 404 response does not short-circuit.
With `retryAttempts = 5` an operation that always fails with a 404
consumes all 5 attempts, not exactly 1 as the claim states. -/
theorem executeWithRetry_404_cex :
    (executeWithRetry
        (fun _ => (Except.error "Request failed with status code 404" : Except String Unit))
        5 1000).attempts = 5 ∧
    ¬ (executeWithRetry
        (fun _ => (Except.error "Request failed with status code 404" : Except String Unit))
        5 1000).attempts = 1 := by
  constructor <;> decide

/-- C2 (amended): `executeWithRetry` does not classify errors at all — every
failure, a 4xx response such as a 404 included, is retried until
`maxAttempts` is exhausted, so a simulated 404 consumes exactly
`maxAttempts` attempts. -/
theorem executeWithRetry_404_retried (N d : ℕ) (h : 1 ≤ N) :
    (executeWithRetry
        (fun _ => (Except.error "Request failed with status code 404" : Except String Unit))
        N d).attempts = N := by
  obtain ⟨r, rfl⟩ : ∃ r, N = r + 1 := ⟨N - 1, by omega⟩
  rw [executeWithRetry, retryLoop_allFail (fun _ => "Request failed with status code 404")]

/-- Witness for the amended C2 at `N = 3`. -/
theorem executeWithRetry_404_retried_witness :
    1 ≤ 3 ∧
    (executeWithRetry
        (fun _ => (Except.error "Request failed with status code 404" : Except String Unit))
        3 1000).attempts = 3 :=
  ⟨by decide, executeWithRetry_404_retried 3 1000 (by decide)⟩

/-! ## Claim theorems: multi-source search -/

/-- A concrete successful facebook item used in counterexamples. -/
def itemA (k : ℕ) : MarketplaceItem :=
  { id := "fb-" ++ toString k, title := "Item " ++ toString k, price := 10,
    currency := "USD", images := [], url := "https://facebook.com/item",
    platform := "facebook-marketplace", scrapedAt := 0 }

/-- C1 counterexample: in the `POST /api/search/all` handler, when source A
(facebook) succeeds with 3 items and source B (poshmark) fails, the whole
request fails with a 500 error response — there is no aggregated result
with `totalCount = 3` and `partialFailure = true`; source B's failure does
cancel the whole multi-source search. -/
theorem searchAllHandler_failFast_cex :
    searchAllHandler (Except.ok [itemA 1, itemA 2, itemA 3])
        (Except.error "Poshmark search failed: network error")
      = SearchAllResponse.serverError "Poshmark search failed: network error" ∧
    ¬ searchAllHandler (Except.ok [itemA 1, itemA 2, itemA 3])
        (Except.error "Poshmark search failed: network error")
      = SearchAllResponse.success [itemA 1, itemA 2, itemA 3] [] 3 := by
  constructor <;> decide

/-- C1 (amended): the multi-source search is fail-fast, not isolating.  The
handler awaits `Promise.all` of the two per-source searches, so when both
succeed the response carries both item lists and their combined count, and
when either source fails the whole request is answered with a 500 failure
carrying that error — per-source failures are not converted into a
per-source failed status. -/
theorem searchAllHandler_failFast (fb ps : List MarketplaceItem)
    (other : Except String (List MarketplaceItem)) (e : String) :
    searchAllHandler (Except.ok fb) (Except.ok ps)
        = SearchAllResponse.success fb ps (fb.length + ps.length) ∧
    searchAllHandler (Except.error e) other = SearchAllResponse.serverError e ∧
    searchAllHandler (Except.ok fb) (Except.error e) = SearchAllResponse.serverError e := by
  refine ⟨?_, ?_, ?_⟩ <;> simp [searchAllHandler, promiseAll2]

/-! ## Helper lemmas on validation -/

lemma checkQuery_ok_iff (o : Option String) (q : String) :
    checkQuery o = Except.ok q ↔ o = some q ∧ 1 ≤ q.length ∧ q.length ≤ 200 := by
  cases o with
  | none => simp [checkQuery]
  | some s =>
    simp only [checkQuery]
    split_ifs with h1 h2
    · constructor
      · intro h; exact absurd h (by simp)
      · rintro ⟨hs, hq, _⟩; cases hs; omega
    · constructor
      · intro h; exact absurd h (by simp)
      · rintro ⟨hs, _, hq⟩; cases hs; omega
    · constructor
      · intro h
        obtain rfl : s = q := by simpa using h
        exact ⟨rfl, by omega, by omega⟩
      · rintro ⟨hs, _, _⟩; cases hs; rfl

lemma checkOptionalString_ok_iff (name : String) (maxLen : ℕ) (o r : Option String) :
    checkOptionalString name maxLen o = Except.ok r ↔
      r = o ∧ ∀ s ∈ o, s.length ≤ maxLen := by
  cases o with
  | none => simp [checkOptionalString, eq_comm]
  | some s =>
    simp only [checkOptionalString]
    split_ifs with h1
    · constructor
      · intro h
        obtain rfl : some s = r := by simpa using h
        simpa using h1
      · rintro ⟨rfl, _⟩; rfl
    · constructor
      · intro h; exact absurd h (by simp)
      · rintro ⟨rfl, hb⟩; exact absurd (hb s rfl) h1

lemma checkOptionalNumber_ok_iff (name : String) (lo hi : ℚ) (o r : Option ℚ) :
    checkOptionalNumber name lo hi o = Except.ok r ↔
      r = o ∧ ∀ x ∈ o, lo ≤ x ∧ x ≤ hi := by
  cases o with
  | none => simp [checkOptionalNumber, eq_comm]
  | some x =>
    simp only [checkOptionalNumber]
    split_ifs with h1 h2
    · constructor
      · intro h; exact absurd h (by simp)
      · rintro ⟨rfl, hb⟩; exact absurd (hb x rfl).1 (by simpa using h1)
    · constructor
      · intro h; exact absurd h (by simp)
      · rintro ⟨rfl, hb⟩; exact absurd (hb x rfl).2 (by simpa using h2)
    · constructor
      · intro h
        obtain rfl : some x = r := by simpa using h
        exact ⟨rfl, by simpa using ⟨le_of_not_lt h1, le_of_not_lt h2⟩⟩
      · rintro ⟨rfl, _⟩; rfl

lemma checkSortBy_ok_iff (o r : Option String) :
    checkSortBy o = Except.ok r ↔ r = o ∧ ∀ s ∈ o, s ∈ validSortByValues := by
  cases o with
  | none => simp [checkSortBy, eq_comm]
  | some s =>
    simp only [checkSortBy]
    split_ifs with h1
    · constructor
      · intro h
        obtain rfl : some s = r := by simpa using h
        simpa using h1
      · rintro ⟨rfl, _⟩; rfl
    · constructor
      · intro h; exact absurd h (by simp)
      · rintro ⟨rfl, hb⟩
        exact absurd (by simpa using hb s rfl) (by simpa using h1)

lemma checkLimit_ok_iff (o : Option ℚ) (l : ℚ) :
    checkLimit o = Except.ok l ↔
      (o = none ∧ l = 20) ∨ (o = some l ∧ 1 ≤ l ∧ l ≤ 100) := by
  cases o with
  | none => simp [checkLimit, eq_comm]
  | some x =>
    simp only [checkLimit]
    split_ifs with h1 h2
    · constructor
      · intro h; exact absurd h (by simp)
      · rintro (⟨h, _⟩ | ⟨h, hb, _⟩)
        · cases h
        · obtain rfl : x = l := by simpa using h
          exact absurd hb (by simpa using h1)
    · constructor
      · intro h; exact absurd h (by simp)
      · rintro (⟨h, _⟩ | ⟨h, _, hb⟩)
        · cases h
        · obtain rfl : x = l := by simpa using h
          exact absurd hb (by simpa using h2)
    · constructor
      · intro h
        obtain rfl : x = l := by simpa using h
        exact Or.inr ⟨rfl, le_of_not_lt h1, le_of_not_lt h2⟩
      · rintro (⟨h, _⟩ | ⟨h, _, _⟩)
        · cases h
        · obtain rfl : x = l := by simpa using h
          rfl

/-- Acceptance characterization of the whole schema: success is exactly
success of every per-key check, in any order. -/
lemma validateSearchParams_ok_iff (raw : RawSearchParams) (out : SearchParams) :
    validateSearchParams raw = Except.ok out ↔
      checkQuery raw.query = Except.ok out.query ∧
      checkOptionalString "category" 100 raw.category = Except.ok out.category ∧
      checkOptionalString "location" 100 raw.location = Except.ok out.location ∧
      checkOptionalNumber "priceMin" 0 100000 raw.priceMin = Except.ok out.priceMin ∧
      checkOptionalNumber "priceMax" 0 100000 raw.priceMax = Except.ok out.priceMax ∧
      checkOptionalString "condition" 50 raw.condition = Except.ok out.condition ∧
      checkSortBy raw.sortBy = Except.ok out.sortBy ∧
      checkLimit raw.limit = Except.ok out.limit := by
  unfold validateSearchParams
  constructor
  · intro h
    repeat' split at h
    all_goals first
      | exact Except.noConfusion h
      | (injection h with h; subst h; simp_all)
  · rintro ⟨h1, h2, h3, h4, h5, h6, h7, h8⟩
    rw [h1, h2, h3, h4, h5, h6, h7, h8]

/-! ## Claim theorems: validation -/

/-- C6 counterexample: the validator accepts `query = "  nike  "` (spaces
kept, so the query is not trimmed), leaves `sortBy` absent instead of
defaulting it to `relevance`, and rejects `limit = 101` with an error
instead of clamping it into `[1, 100]`.  Only the `limit = 20` default is
as claimed. -/
theorem validateSearchParams_normalization_cex :
    validateSearchParams
        { query := some "  nike  ", category := none, location := none, priceMin := none,
          priceMax := none, condition := none, sortBy := none, limit := none }
      = Except.ok
        { query := "  nike  ", category := none, location := none, priceMin := none,
          priceMax := none, condition := none, sortBy := none, limit := 20 } ∧
    ¬ validateSearchParams
        { query := some "  nike  ", category := none, location := none, priceMin := none,
          priceMax := none, condition := none, sortBy := none, limit := none }
      = Except.ok
        { query := "nike", category := none, location := none, priceMin := none,
          priceMax := none, condition := none, sortBy := some "relevance", limit := 20 } ∧
    validateSearchParams
        { query := some "nike", category := none, location := none, priceMin := none,
          priceMax := none, condition := none, sortBy := none, limit := some 101 }
      = Except.error "limit must be less than or equal to 100" := by
  refine ⟨?_, ?_, ?_⟩ <;> decide

/-- C6 (amended): validation applies the default `limit = 20` when `limit`
is absent, and any accepted limit lies in `[1, 100]` (out-of-range limits
are rejected, not clamped); the accepted query is passed through untrimmed
and `sortBy` is passed through with no default. -/
theorem validateSearchParams_normalization (raw : RawSearchParams) (out : SearchParams)
    (h : validateSearchParams raw = Except.ok out) :
    raw.query = some out.query ∧
    out.sortBy = raw.sortBy ∧
    out.limit = raw.limit.getD 20 ∧
    1 ≤ out.limit ∧ out.limit ≤ 100 := by
  rw [validateSearchParams_ok_iff] at h
  obtain ⟨h1, _, _, _, _, _, h7, h8⟩ := h
  have hq := (checkQuery_ok_iff _ _).mp h1
  have hs := (checkSortBy_ok_iff _ _).mp h7
  have hl := (checkLimit_ok_iff _ _).mp h8
  refine ⟨hq.1, hs.1, ?_⟩
  rcases hl with ⟨hnone, h20⟩ | ⟨hsome, hlo, hhi⟩
  · rw [hnone, h20]
    exact ⟨rfl, by norm_num, by norm_num⟩
  · rw [hsome]
    exact ⟨rfl, hlo, hhi⟩

/-- Witness for the amended C6 at a concrete accepted request. -/
theorem validateSearchParams_normalization_witness :
    validateSearchParams
        { query := some "nike", category := none, location := none, priceMin := none,
          priceMax := none, condition := none, sortBy := none, limit := none }
      = Except.ok
        { query := "nike", category := none, location := none, priceMin := none,
          priceMax := none, condition := none, sortBy := none, limit := 20 } ∧
    ((RawSearchParams.mk (some "nike") none none none none none none none).query
        = some (SearchParams.mk "nike" none none none none none none 20).query ∧
      (SearchParams.mk "nike" none none none none none none 20).sortBy
        = (RawSearchParams.mk (some "nike") none none none none none none none).sortBy ∧
      (SearchParams.mk "nike" none none none none none none 20).limit
        = (RawSearchParams.mk (some "nike") none none none none none none none).limit.getD 20 ∧
      1 ≤ (SearchParams.mk "nike" none none none none none none 20).limit ∧
      (SearchParams.mk "nike" none none none none none none 20).limit ≤ 100) :=
  ⟨by decide, validateSearchParams_normalization _ _ (by decide)⟩

/-- C7: validation is idempotent — re-validating the normalized output of
an accepted request accepts it and returns it unchanged. -/
theorem validateSearchParams_idempotent (raw : RawSearchParams) (out : SearchParams)
    (h : validateSearchParams raw = Except.ok out) :
    validateSearchParams (rawOfValidated out) = Except.ok out := by
  rw [validateSearchParams_ok_iff] at h ⊢
  obtain ⟨h1, h2, h3, h4, h5, h6, h7, h8⟩ := h
  have hq := (checkQuery_ok_iff _ _).mp h1
  have hcat := (checkOptionalString_ok_iff _ _ _ _).mp h2
  have hloc := (checkOptionalString_ok_iff _ _ _ _).mp h3
  have hpmin := (checkOptionalNumber_ok_iff _ _ _ _ _).mp h4
  have hpmax := (checkOptionalNumber_ok_iff _ _ _ _ _).mp h5
  have hcond := (checkOptionalString_ok_iff _ _ _ _).mp h6
  have hs := (checkSortBy_ok_iff _ _).mp h7
  have hl := (checkLimit_ok_iff _ _).mp h8
  simp only [rawOfValidated]
  refine ⟨?_, ?_, ?_, ?_, ?_, ?_, ?_, ?_⟩
  · exact (checkQuery_ok_iff _ _).mpr ⟨rfl, hq.2⟩
  · exact (checkOptionalString_ok_iff _ _ _ _).mpr ⟨rfl, hcat.1 ▸ hcat.2⟩
  · exact (checkOptionalString_ok_iff _ _ _ _).mpr ⟨rfl, hloc.1 ▸ hloc.2⟩
  · exact (checkOptionalNumber_ok_iff _ _ _ _ _).mpr ⟨rfl, hpmin.1 ▸ hpmin.2⟩
  · exact (checkOptionalNumber_ok_iff _ _ _ _ _).mpr ⟨rfl, hpmax.1 ▸ hpmax.2⟩
  · exact (checkOptionalString_ok_iff _ _ _ _).mpr ⟨rfl, hcond.1 ▸ hcond.2⟩
  · exact (checkSortBy_ok_iff _ _).mpr ⟨rfl, hs.1 ▸ hs.2⟩
  · refine (checkLimit_ok_iff _ _).mpr (Or.inr ⟨rfl, ?_⟩)
    rcases hl with ⟨_, h20⟩ | ⟨_, hlo, hhi⟩
    · rw [h20]; norm_num
    · exact ⟨hlo, hhi⟩

/-- Witness for C7 at a concrete accepted request. -/
theorem validateSearchParams_idempotent_witness :
    validateSearchParams
        { query := some "vintage jacket", category := some "Women", location := none,
          priceMin := some 5, priceMax := some 50, condition := none,
          sortBy := some "price-low", limit := some 40 }
      = Except.ok
        { query := "vintage jacket", category := some "Women", location := none,
          priceMin := some 5, priceMax := some 50, condition := none,
          sortBy := some "price-low", limit := 40 } ∧
    validateSearchParams
        (rawOfValidated
          { query := "vintage jacket", category := some "Women", location := none,
            priceMin := some 5, priceMax := some 50, condition := none,
            sortBy := some "price-low", limit := 40 })
      = Except.ok
        { query := "vintage jacket", category := some "Women", location := none,
          priceMin := some 5, priceMax := some 50, condition := none,
          sortBy := some "price-low", limit := 40 } :=
  ⟨by decide,
    validateSearchParams_idempotent
      { query := some "vintage jacket", category := some "Women", location := none,
        priceMin := some 5, priceMax := some 50, condition := none,
        sortBy := some "price-low", limit := some 40 }
      { query := "vintage jacket", category := some "Women", location := none,
        priceMin := some 5, priceMax := some 50, condition := none,
        sortBy := some "price-low", limit := 40 }
      (by decide)⟩

/-! ## Claim theorems: health derivation -/

/-- C8: for every combination of per-scraper states, if any scraper reports
`error` the overall status is `unhealthy`; else if any scraper is
`inactive` the overall status is `degraded`; else it is `healthy`. -/
theorem deriveOverallStatus_spec (facebook poshmark : ScraperState) :
    ((facebook = ScraperState.error ∨ poshmark = ScraperState.error) →
      deriveOverallStatus facebook poshmark = OverallHealth.unhealthy) ∧
    (¬ (facebook = ScraperState.error ∨ poshmark = ScraperState.error) →
      (facebook = ScraperState.inactive ∨ poshmark = ScraperState.inactive) →
      deriveOverallStatus facebook poshmark = OverallHealth.degraded) ∧
    (¬ (facebook = ScraperState.error ∨ poshmark = ScraperState.error) →
      ¬ (facebook = ScraperState.inactive ∨ poshmark = ScraperState.inactive) →
      deriveOverallStatus facebook poshmark = OverallHealth.healthy) := by
  cases facebook <;> cases poshmark <;> simp [deriveOverallStatus]

/-- Witness for C8: one concrete combination per branch. -/
theorem deriveOverallStatus_spec_witness :
    deriveOverallStatus ScraperState.error ScraperState.active = OverallHealth.unhealthy ∧
    deriveOverallStatus ScraperState.inactive ScraperState.active = OverallHealth.degraded ∧
    deriveOverallStatus ScraperState.active ScraperState.active = OverallHealth.healthy :=
  ⟨(deriveOverallStatus_spec ScraperState.error ScraperState.active).1 (Or.inl rfl),
   (deriveOverallStatus_spec ScraperState.inactive ScraperState.active).2.1
     (by decide) (Or.inl rfl),
   (deriveOverallStatus_spec ScraperState.active ScraperState.active).2.2
     (by decide) (by decide)⟩

/-! ## Claim theorems: price statistics -/

/-- The standard even/odd split-averaging median of an already sorted list:
the average of the two middle elements when the length is even, the middle
element when odd.  Stated from the spec's words, for comparison with the
median computed inside `getPriceStats`. -/
def medianEvenOddRule (sorted : List ℚ) : ℚ :=
  if sorted.length % 2 = 0 then
    (sorted.getD (sorted.length / 2 - 1) 0 + sorted.getD (sorted.length / 2) 0) / 2
  else sorted.getD (sorted.length / 2) 0

/-- A concrete item with the given price, for concrete instances. -/
def priceOnlyItem (price : ℚ) : MarketplaceItem :=
  { id := "id", title := "listing", price := price, currency := "USD", images := [],
    url := "https://poshmark.com/listing", platform := "poshmark", scrapedAt := 0 }

/-- C9: on every non-empty item list, `getPriceStats` returns the minimum
and maximum of the item prices, the arithmetic mean, and the even/odd
split-averaging median of the sorted prices; in particular for prices
`[10, 20, 30, 40]` it returns `min = 10`, `max = 40`, `average = 25`,
`median = 25`. -/
theorem getPriceStats_spec :
    (∀ items : List MarketplaceItem, items ≠ [] →
      ((getPriceStats items).min ∈ items.map (fun item => item.price) ∧
        ∀ q ∈ items.map (fun item => item.price), (getPriceStats items).min ≤ q) ∧
      ((getPriceStats items).max ∈ items.map (fun item => item.price) ∧
        ∀ q ∈ items.map (fun item => item.price), q ≤ (getPriceStats items).max) ∧
      (getPriceStats items).average
          = (items.map (fun item => item.price)).sum / (items.length : ℚ) ∧
      (getPriceStats items).median
          = medianEvenOddRule
              (List.insertionSort (· ≤ ·) (items.map fun item => item.price))) ∧
    ((getPriceStats [priceOnlyItem 10, priceOnlyItem 20, priceOnlyItem 30,
        priceOnlyItem 40]).min = 10 ∧
      (getPriceStats [priceOnlyItem 10, priceOnlyItem 20, priceOnlyItem 30,
        priceOnlyItem 40]).max = 40 ∧
      (getPriceStats [priceOnlyItem 10, priceOnlyItem 20, priceOnlyItem 30,
        priceOnlyItem 40]).average = 25 ∧
      (getPriceStats [priceOnlyItem 10, priceOnlyItem 20, priceOnlyItem 30,
        priceOnlyItem 40]).median = 25) := by
  have general : ∀ items : List MarketplaceItem, items ≠ [] →
      ((getPriceStats items).min ∈ items.map (fun item => item.price) ∧
        ∀ q ∈ items.map (fun item => item.price), (getPriceStats items).min ≤ q) ∧
      ((getPriceStats items).max ∈ items.map (fun item => item.price) ∧
        ∀ q ∈ items.map (fun item => item.price), q ≤ (getPriceStats items).max) ∧
      (getPriceStats items).average
          = (items.map (fun item => item.price)).sum / (items.length : ℚ) ∧
      (getPriceStats items).median
          = medianEvenOddRule
              (List.insertionSort (· ≤ ·) (items.map fun item => item.price)) := by
    intro items hne
    set s := List.insertionSort (· ≤ ·) (items.map fun item => item.price) with hs
    have hperm : s.Perm (items.map fun item => item.price) :=
      List.perm_insertionSort (· ≤ ·) _
    have hsort : List.Sorted (· ≤ ·) s := List.sorted_insertionSort (· ≤ ·) _
    have hlen : s.length = items.length := by
      rw [hperm.length_eq, List.length_map]
    have hpos : 0 < items.length := List.length_pos.mpr hne
    have hspos : 0 < s.length := by omega
    have hlast : s.length - 1 < s.length := by omega
    have hstats : getPriceStats items =
        { min := s.getD 0 0,
          max := s.getD (s.length - 1) 0,
          average := s.foldl (fun sum price => sum + price) 0 / (s.length : ℚ),
          median := if s.length % 2 = 0
            then (s.getD (s.length / 2 - 1) 0 + s.getD (s.length / 2) 0) / 2
            else s.getD (s.length / 2) 0 } := by
      simp only [getPriceStats]
      rw [if_neg (by omega : ¬ items.length = 0)]
    have hmin_eq : (getPriceStats items).min = s.getD 0 0 := by rw [hstats]
    have hmax_eq : (getPriceStats items).max = s.getD (s.length - 1) 0 := by rw [hstats]
    have havg_eq : (getPriceStats items).average
        = s.foldl (fun sum price => sum + price) 0 / (s.length : ℚ) := by rw [hstats]
    have hmed_eq : (getPriceStats items).median
        = (if s.length % 2 = 0
            then (s.getD (s.length / 2 - 1) 0 + s.getD (s.length / 2) 0) / 2
            else s.getD (s.length / 2) 0) := by rw [hstats]
    refine ⟨⟨?_, ?_⟩, ⟨?_, ?_⟩, ?_, ?_⟩
    · rw [hmin_eq, List.getD_eq_getElem s 0 hspos]
      exact hperm.subset (List.getElem_mem hspos)
    · intro q hq
      obtain ⟨i, hi, hqi⟩ := List.mem_iff_getElem.mp (hperm.mem_iff.mpr hq)
      rw [hmin_eq, List.getD_eq_getElem s 0 hspos, ← hqi]
      have := hsort.rel_get_of_le (a := ⟨0, hspos⟩) (b := ⟨i, hi⟩) (Nat.zero_le i)
      simpa using this
    · rw [hmax_eq, List.getD_eq_getElem s _ hlast]
      exact hperm.subset (List.getElem_mem hlast)
    · intro q hq
      obtain ⟨i, hi, hqi⟩ := List.mem_iff_getElem.mp (hperm.mem_iff.mpr hq)
      rw [hmax_eq, List.getD_eq_getElem s _ hlast, ← hqi]
      have := hsort.rel_get_of_le (a := ⟨i, hi⟩) (b := ⟨s.length - 1, hlast⟩)
        (by omega : i ≤ s.length - 1)
      simpa using this
    · rw [havg_eq, ← List.sum_eq_foldl, hperm.sum_eq, hlen]
    · rw [hmed_eq]
      simp only [medianEvenOddRule]
  refine ⟨general, ?_⟩
  obtain ⟨⟨hminmem, hminle⟩, ⟨hmaxmem, hmaxle⟩, havg, hmed⟩ :=
    general [priceOnlyItem 10, priceOnlyItem 20, priceOnlyItem 30, priceOnlyItem 40]
      (by decide)
  refine ⟨?_, ?_, ?_, ?_⟩
  · refine le_antisymm (hminle 10 (by decide)) ?_
    have hall : ∀ x ∈ ([priceOnlyItem 10, priceOnlyItem 20, priceOnlyItem 30,
        priceOnlyItem 40].map fun item => item.price), (10 : ℚ) ≤ x := by decide
    exact hall _ hminmem
  · refine le_antisymm ?_ (hmaxle 40 (by decide))
    have hall : ∀ x ∈ ([priceOnlyItem 10, priceOnlyItem 20, priceOnlyItem 30,
        priceOnlyItem 40].map fun item => item.price), x ≤ (40 : ℚ) := by decide
    exact hall _ hmaxmem
  · rw [havg]
    rw [(by decide : ([priceOnlyItem 10, priceOnlyItem 20, priceOnlyItem 30,
        priceOnlyItem 40].map fun item => item.price) = ([10, 20, 30, 40] : List ℚ))]
    rw [(by decide : [priceOnlyItem 10, priceOnlyItem 20, priceOnlyItem 30,
        priceOnlyItem 40].length = 4)]
    norm_num [List.sum_cons, List.sum_nil]
  · rw [hmed]
    rw [(by decide : List.insertionSort (· ≤ ·)
        ([priceOnlyItem 10, priceOnlyItem 20, priceOnlyItem 30,
          priceOnlyItem 40].map fun item => item.price) = ([10, 20, 30, 40] : List ℚ))]
    simp only [medianEvenOddRule]
    rw [if_pos (by decide : ([10, 20, 30, 40] : List ℚ).length % 2 = 0)]
    rw [(by decide : ([10, 20, 30, 40] : List ℚ).getD
        (([10, 20, 30, 40] : List ℚ).length / 2 - 1) 0 = 20)]
    rw [(by decide : ([10, 20, 30, 40] : List ℚ).getD
        (([10, 20, 30, 40] : List ℚ).length / 2) 0 = 30)]
    norm_num

/-- Witness for C9: the universally quantified part applied to a concrete
two-item list. -/
theorem getPriceStats_spec_witness :
    ([priceOnlyItem 5, priceOnlyItem 7] : List MarketplaceItem) ≠ [] ∧
    (((getPriceStats [priceOnlyItem 5, priceOnlyItem 7]).min
          ∈ [priceOnlyItem 5, priceOnlyItem 7].map (fun item => item.price) ∧
        ∀ q ∈ [priceOnlyItem 5, priceOnlyItem 7].map (fun item => item.price),
          (getPriceStats [priceOnlyItem 5, priceOnlyItem 7]).min ≤ q) ∧
      ((getPriceStats [priceOnlyItem 5, priceOnlyItem 7]).max
          ∈ [priceOnlyItem 5, priceOnlyItem 7].map (fun item => item.price) ∧
        ∀ q ∈ [priceOnlyItem 5, priceOnlyItem 7].map (fun item => item.price),
          q ≤ (getPriceStats [priceOnlyItem 5, priceOnlyItem 7]).max) ∧
      (getPriceStats [priceOnlyItem 5, priceOnlyItem 7]).average
          = ([priceOnlyItem 5, priceOnlyItem 7].map (fun item => item.price)).sum
            / (([priceOnlyItem 5, priceOnlyItem 7] : List MarketplaceItem).length : ℚ) ∧
      (getPriceStats [priceOnlyItem 5, priceOnlyItem 7]).median
          = medianEvenOddRule
              (List.insertionSort (· ≤ ·)
                ([priceOnlyItem 5, priceOnlyItem 7].map fun item => item.price))) :=
  ⟨by decide, getPriceStats_spec.1 [priceOnlyItem 5, priceOnlyItem 7] (by decide)⟩

/-- C10: on the empty item list, `getPriceStats` returns all-zero
statistics (no `NaN`, no absent field, no exception). -/
theorem getPriceStats_empty :
    getPriceStats [] = { min := 0, max := 0, average := 0, median := 0 } := rfl

/-! ## Claim theorems: price parsing -/

/-- C3: `parsePrice` maps `"$1,234.56"` to `1234.56` and `"$85"` to `85`,
but on the unparsable input `"Free!"` it returns JS `NaN` (modelled
`none`), not `0`: `parseFloat` of the emptied cleaned string is `NaN` and
never throws, so the `catch` branch that would return `0` is dead code. -/
theorem parsePrice_eval :
    parsePrice "$1,234.56" = some (1234.56 : ℚ) ∧
    parsePrice "$85" = some 85 ∧
    parsePrice "Free!" = none := by
  refine ⟨?_, ?_, by decide⟩
  · show (parseFloatParts "1234.56").map ratOfParts = some (1234.56 : ℚ)
    have h : parseFloatParts "1234.56" = some (1234, 56, 2) := by decide
    rw [h]
    show some (ratOfParts (1234, 56, 2)) = some (1234.56 : ℚ)
    norm_num [ratOfParts]
  · show (parseFloatParts "85").map ratOfParts = some (85 : ℚ)
    have h : parseFloatParts "85" = some (85, 0, 0) := by decide
    rw [h]
    show some (ratOfParts (85, 0, 0)) = some (85 : ℚ)
    norm_num [ratOfParts]

end FlipLab
